import Mathlib

set_option maxRecDepth 100000

/-!
# Verification of the Secure-Data-Provenance-Framework core

A shallow embedding of the provenance engine (`provenance_engine.py`), the
canonical codec (`utils/crypto_utils.py`) and the verifier (`verifier.py`),
together with proofs of the specification's claims about them.

Conventions of the embedding:

* Byte strings are `List Nat` (each element `< 256`); text strings are Lean
  `String` (sequences of Unicode code points, as in Python).
* SHA-256 and HMAC-SHA-256 are implemented concretely over `List Nat` with
  32-bit words represented as `Nat` reduced modulo `2 ^ 32`.
* The SQLite store is a record of three row lists; `AUTOINCREMENT` primary
  keys are modelled as `max id + 1`, and `ORDER BY`/`LIMIT 1` queries as
  explicit sorts and selections.
* Process-environment inputs (the HMAC key, the system identity, the clock,
  fresh UUIDs, the size of a staged file, MIME guessing) are threaded through
  an explicit `Env` value, mirroring the lazily initialised module state.
-/

/-! ## SHA-256 (`hashlib.sha256`) over byte lists -/

/-- `2 ^ 32`, the modulus of the 32-bit words used by SHA-256. -/
def M32 : Nat := 4294967296

/-- Right rotation of a 32-bit word by `n` bits. -/
def rotr (n x : Nat) : Nat := ((x >>> n) ||| (x <<< (32 - n))) % M32

/-- Big sigma-0 of the SHA-256 compression function. -/
def bsig0 (x : Nat) : Nat := rotr 2 x ^^^ rotr 13 x ^^^ rotr 22 x

/-- Big sigma-1 of the SHA-256 compression function. -/
def bsig1 (x : Nat) : Nat := rotr 6 x ^^^ rotr 11 x ^^^ rotr 25 x

/-- Small sigma-0 of the SHA-256 message schedule. -/
def ssig0 (x : Nat) : Nat := rotr 7 x ^^^ rotr 18 x ^^^ (x >>> 3)

/-- Small sigma-1 of the SHA-256 message schedule. -/
def ssig1 (x : Nat) : Nat := rotr 17 x ^^^ rotr 19 x ^^^ (x >>> 10)

/-- SHA-256 choice function; `¬x` is taken inside 32 bits. -/
def chFn (x y z : Nat) : Nat := (x &&& y) ^^^ ((x ^^^ (M32 - 1)) &&& z)

/-- SHA-256 majority function. -/
def majFn (x y z : Nat) : Nat := (x &&& y) ^^^ (x &&& z) ^^^ (y &&& z)

/-- The 64 SHA-256 round constants of FIPS 180-4, in decimal. -/
def K256 : List Nat :=
  [1116352408, 1899447441, 3049323471, 3921009573, 961987163, 1508970993,
   2453635748, 2870763221, 3624381080, 310598401, 607225278, 1426881987,
   1925078388, 2162078206, 2614888103, 3248222580, 3835390401, 4022224774,
   264347078, 604807628, 770255983, 1249150122, 1555081692, 1996064986,
   2554220882, 2821834349, 2952996808, 3210313671, 3336571891, 3584528711,
   113926993, 338241895, 666307205, 773529912, 1294757372, 1396182291,
   1695183700, 1986661051, 2177026350, 2456956037, 2730485921, 2820302411,
   3259730800, 3345764771, 3516065817, 3600352804, 4094571909, 275423344,
   430227734, 506948616, 659060556, 883997877, 958139571, 1322822218,
   1537002063, 1747873779, 1955562222, 2024104815, 2227730452, 2361852424,
   2428436474, 2756734187, 3204031479, 3329325298]

/-- The SHA-256 initial hash state of FIPS 180-4, in decimal. -/
def H256 : List Nat :=
  [1779033703, 3144134277, 1013904242, 2773480762,
   1359893119, 2600822924, 528734635, 1541459225]

/-- `v` as `n` big-endian bytes. -/
def beBytes (n v : Nat) : List Nat :=
  (List.range n).map (fun i => (v >>> (8 * (n - 1 - i))) % 256)

/-- SHA-256 padding: append `0x80`, zeros to 56 mod 64, then the bit length. -/
def sha256pad (msg : List Nat) : List Nat :=
  let L := msg.length
  let k := (64 + 55 - L % 64) % 64
  msg ++ [0x80] ++ List.replicate k 0 ++ beBytes 8 (8 * L)

/-- Group a byte list into big-endian 32-bit words (length a multiple of 4). -/
def toWords : List Nat → List Nat
  | a :: b :: c :: d :: rest => (((a * 256 + b) * 256 + c) * 256 + d) :: toWords rest
  | _ => []

/-- Split a list into chunks of `n` elements, fuelled by the list length. -/
def chunksGo (n : Nat) : Nat → List α → List (List α)
  | 0, _ => []
  | _, [] => []
  | fuel + 1, l => l.take n :: chunksGo n fuel (l.drop n)

/-- Split a list into chunks of `n` elements. -/
def chunks (n : Nat) (l : List α) : List (List α) := chunksGo n l.length l

/-- Extend the 16-word block to the 64-word message schedule (`t` more words). -/
def schedGo : Nat → List Nat → List Nat
  | 0, w => w
  | t + 1, w =>
    let i := w.length
    let x := (ssig1 (w.getD (i - 2) 0) + w.getD (i - 7) 0 +
              ssig0 (w.getD (i - 15) 0) + w.getD (i - 16) 0) % M32
    schedGo t (w ++ [x])

/-- The 64-word SHA-256 message schedule of one 64-byte block. -/
def schedule (block : List Nat) : List Nat := schedGo 48 (toWords block)

/-- One SHA-256 round on the eight-word working state. -/
def round256 (st : List Nat) (kw : Nat × Nat) : List Nat :=
  match st with
  | [a, b, c, d, e, f, g, h] =>
    let t1 := (h + bsig1 e + chFn e f g + kw.1 + kw.2) % M32
    let t2 := (bsig0 a + majFn a b c) % M32
    [(t1 + t2) % M32, a, b, c, (d + t1) % M32, e, f, g]
  | _ => st

/-- Compress one 64-byte block into the running eight-word state. -/
def compress256 (st : List Nat) (block : List Nat) : List Nat :=
  let final := (K256.zip (schedule block)).foldl round256 st
  (st.zip final).map (fun p => (p.1 + p.2) % M32)

/-- The SHA-256 digest of a byte list, as 32 bytes. -/
def sha256digest (msg : List Nat) : List Nat :=
  ((chunks 64 (sha256pad msg)).foldl compress256 H256).foldr
    (fun w acc => beBytes 4 w ++ acc) []

/-- One lowercase hex digit. -/
def hexChar (n : Nat) : Char :=
  if n < 10 then Char.ofNat (48 + n) else Char.ofNat (87 + n)

/-- Lowercase hex rendering of a byte list. -/
def hexOfBytes (bs : List Nat) : String :=
  String.mk (bs.foldr (fun b acc => hexChar (b / 16) :: hexChar (b % 16) :: acc) [])

/-- UTF-8 encoding of one code point. -/
def utf8Char (n : Nat) : List Nat :=
  if n < 128 then [n]
  else if n < 2048 then [192 + n / 64, 128 + n % 64]
  else if n < 65536 then [224 + n / 4096, 128 + n / 64 % 64, 128 + n % 64]
  else [240 + n / 262144, 128 + n / 4096 % 64, 128 + n / 64 % 64, 128 + n % 64]

/-- UTF-8 encoding of a string, as Python's `str.encode("utf-8")`. -/
def utf8Encode (s : String) : List Nat :=
  s.data.foldr (fun c acc => utf8Char c.toNat ++ acc) []

/-- `sha256_bytes` from `utils/crypto_utils.py`: hex digest of a byte list. -/
def sha256_bytes (data : List Nat) : String := hexOfBytes (sha256digest data)

/-- `sha256_file` from `utils/crypto_utils.py`, applied to the file's byte
contents: the chunked read loop hashes exactly the byte stream, so the digest
is that of the whole contents. -/
def sha256_file (contents : List Nat) : String := sha256_bytes contents

/-- HMAC-SHA-256 (`hmac.new(key, msg, hashlib.sha256)`), digest as 32 bytes. -/
def hmacSha256digest (key msg : List Nat) : List Nat :=
  let k0 := if 64 < key.length then sha256digest key else key
  let kp := k0 ++ List.replicate (64 - k0.length) 0
  sha256digest ((kp.map (· ^^^ 0x5c)) ++ sha256digest ((kp.map (· ^^^ 0x36)) ++ msg))

/-- `hmac_sha256_hex` from `utils/crypto_utils.py`: HMAC-SHA-256 over the
UTF-8 bytes of `message_hex`, rendered as lowercase hex. -/
def hmac_sha256_hex (key : List Nat) (message_hex : String) : String :=
  hexOfBytes (hmacSha256digest key (utf8Encode message_hex))

/-! ## Canonical JSON (`canonical_json` in `utils/crypto_utils.py`)

`json.dumps(obj, sort_keys=True, separators=(",", ":"), ensure_ascii=False)`
restricted to the value shapes that occur in an event core: strings, integers
and `None`. -/

/-- A JSON value of an event core: a string, an integer, or `null`. -/
inductive JVal where
  | s (v : String)
  | n (v : Int)
  | null
deriving DecidableEq

/-- Escaping of one character as done by `json.dumps` with
`ensure_ascii=False`: only the two JSON metacharacters and the C0 control
characters are escaped; everything else, non-ASCII included, is literal. -/
def escapeChar (c : Char) : String :=
  if c = '"' then "\\\""
  else if c = '\\' then "\\\\"
  else if c = '\x08' then "\\b"
  else if c = '\x0c' then "\\f"
  else if c = '\n' then "\\n"
  else if c = '\r' then "\\r"
  else if c = '\t' then "\\t"
  else if c.toNat < 32 then
    "\\u00" ++ String.mk [hexChar (c.toNat / 16), hexChar (c.toNat % 16)]
  else String.singleton c

/-- A JSON string literal: quoted, with each character escaped. -/
def encString (v : String) : String :=
  "\"" ++ String.join (v.data.map escapeChar) ++ "\""

/-- Serialization of one JSON value (integers print as in Python). -/
def encJVal : JVal → String
  | .s v => encString v
  | .n v => toString v
  | .null => "null"

/-- Strict code-point lexicographic order on character lists, the order of
Python string comparison. -/
def keyLtGo : List Char → List Char → Bool
  | [], [] => false
  | [], _ :: _ => true
  | _ :: _, [] => false
  | a :: as, b :: bs =>
    if a.toNat < b.toNat then true
    else if b.toNat < a.toNat then false
    else keyLtGo as bs

/-- Strict code-point lexicographic order on strings. -/
def keyLt (a b : String) : Bool := keyLtGo a.data b.data

/-- Insert a key-value pair into a key-sorted pair list, keeping it sorted
(code-point lexicographic order on keys, as `sorted` on Python strings). -/
def insertPair (p : String × JVal) : List (String × JVal) → List (String × JVal)
  | [] => [p]
  | q :: t => if keyLt p.1 q.1 then p :: q :: t else q :: insertPair p t

/-- Sort a pair list by key, lexicographically. -/
def sortPairs : List (String × JVal) → List (String × JVal)
  | [] => []
  | p :: t => insertPair p (sortPairs t)

/-- `canonical_json` from `utils/crypto_utils.py`: keys sorted, `","` and
`":"` separators without spaces, non-ASCII literal, no trailing newline. -/
def canonical_json (obj : List (String × JVal)) : String :=
  "\x7b" ++
    String.intercalate ","
      ((sortPairs obj).map (fun p => encString p.1 ++ ":" ++ encJVal p.2)) ++
  "\x7d"

/-- `sha256_canonical_json` from `utils/crypto_utils.py`. -/
def sha256_canonical_json (obj : List (String × JVal)) : String :=
  sha256_bytes (utf8Encode (canonical_json obj))

/-! ## The chain engine (`provenance_engine.py`) -/

/-- The failure taxonomy of chain validation (`failure_type`). -/
inductive FKind where
  | CHAIN
  | HMAC
deriving DecidableEq

/-- `ChainValidationResult` from `provenance_engine.py`. -/
structure ChainValidationResult where
  ok : Bool
  error : Option String := none
  failure_type : Option FKind := none
deriving DecidableEq

/-- `GENESIS_PREV_HASH` from `provenance_engine.py`. -/
def GENESIS_PREV_HASH : String := "GENESIS"

/-- An event record as `validate_chain` receives it: a dictionary that may
lack keys.  A `none` in one of the ten required fields models the key being
absent; `file_version_id`, `client_ip` and `user_agent` are read with
`dict.get`, for which an absent key and a stored SQL `NULL` coincide. -/
structure EventRec where
  id : Option Int := none
  case_id : Option Int := none
  file_version_id : Option Int := none
  action : Option String := none
  file_hash : Option String := none
  prev_hash : Option String := none
  curr_hash : Option String := none
  timestamp : Option String := none
  system_id : Option String := none
  request_id : Option String := none
  client_ip : Option String := none
  user_agent : Option String := none
  record_hmac : Option String := none
deriving DecidableEq

/-- An optional string as a JSON value (`None` becomes `null`). -/
def optStrJ : Option String → JVal
  | some v => .s v
  | none => .null

/-- An optional integer as a JSON value (`None` becomes `null`). -/
def optIntJ : Option Int → JVal
  | some v => .n v
  | none => .null

/-- The `core` dictionary `validate_chain` rebuilds from a record, in the
insertion order of the source. -/
def coreOfRec (r : EventRec) : List (String × JVal) :=
  [("case_id", .n (r.case_id.getD 0)),
   ("file_version_id", optIntJ r.file_version_id),
   ("action", .s (r.action.getD "")),
   ("file_hash", .s (r.file_hash.getD "")),
   ("prev_hash", .s (r.prev_hash.getD "")),
   ("timestamp", .s (r.timestamp.getD "")),
   ("system_id", .s (r.system_id.getD "")),
   ("request_id", .s (r.request_id.getD "")),
   ("client_ip", optStrJ r.client_ip),
   ("user_agent", optStrJ r.user_agent)]

/-- `compute_record_hash` from `provenance_engine.py`. -/
def compute_record_hash (record_core : List (String × JVal)) : String :=
  sha256_canonical_json record_core

/-- `compute_record_hmac` from `provenance_engine.py`. -/
def compute_record_hmac (hmac_key : List Nat) (record_hash_hex : String) : String :=
  hmac_sha256_hex hmac_key record_hash_hex

/-- The first required field missing from a record, scanning the fields in
the order of the tuple in `validate_chain`. -/
def firstMissing (r : EventRec) : Option String :=
  if r.id.isNone then some "id"
  else if r.case_id.isNone then some "case_id"
  else if r.action.isNone then some "action"
  else if r.file_hash.isNone then some "file_hash"
  else if r.prev_hash.isNone then some "prev_hash"
  else if r.curr_hash.isNone then some "curr_hash"
  else if r.timestamp.isNone then some "timestamp"
  else if r.system_id.isNone then some "system_id"
  else if r.request_id.isNone then some "request_id"
  else if r.record_hmac.isNone then some "record_hmac"
  else none

/-- Message for a missing required field. -/
def msgMissing (field : String) (idx : Nat) : String :=
  "Missing field \x27" ++ field ++ "\x27 at index " ++ toString idx

/-- Message for a broken `prev_hash` link. -/
def msgChainBroken (idx : Nat) (prev : String) : String :=
  "Chain broken at index " ++ toString idx ++ ": prev_hash mismatch (expected " ++ prev ++ ")"

/-- Message for a record hash mismatch. -/
def msgHashMismatch (idx : Nat) : String :=
  "Record hash mismatch at index " ++ toString idx

/-- Message for an HMAC mismatch. -/
def msgHmacMismatch (idx : Nat) : String :=
  "HMAC mismatch at index " ++ toString idx

/-- The loop body of `validate_chain`, carrying the running `prev` hash and
the enumeration index. -/
def validateFrom (hmac_key : List Nat) (prev : String) (idx : Nat) :
    List EventRec → ChainValidationResult
  | [] => { ok := true }
  | r :: rest =>
    match firstMissing r with
    | some field => ⟨false, some (msgMissing field idx), some .CHAIN⟩
    | none =>
      if r.prev_hash ≠ some prev then
        ⟨false, some (msgChainBroken idx prev), some .CHAIN⟩
      else
        let expected_hash := compute_record_hash (coreOfRec r)
        if r.curr_hash ≠ some expected_hash then
          ⟨false, some (msgHashMismatch idx), some .CHAIN⟩
        else
          let expected_hmac := compute_record_hmac hmac_key expected_hash
          if r.record_hmac ≠ some expected_hmac then
            ⟨false, some (msgHmacMismatch idx), some .HMAC⟩
          else
            validateFrom hmac_key (r.curr_hash.getD "") (idx + 1) rest

/-- `validate_chain` from `provenance_engine.py`. -/
def validate_chain (records : List EventRec) (hmac_key : List Nat) :
    ChainValidationResult :=
  validateFrom hmac_key GENESIS_PREV_HASH 0 records

/-! ## The record store (`db.py` schema) and its environment -/

/-- A row of the `cases` table. -/
structure Case where
  id : Int
  case_uuid : String
  filename : String
  created_time : String
  system_id : String
deriving DecidableEq

/-- A row of the `file_versions` table. -/
structure FileVersion where
  id : Int
  case_id : Int
  version : Int
  stored_path : String
  file_hash : String
  file_size : Int
  mime_type : Option String
  upload_time : String
  system_id : String
deriving DecidableEq

/-- A row of the `provenance_events` table. -/
structure PEvent where
  id : Int
  case_id : Int
  file_version_id : Option Int
  action : String
  file_hash : String
  prev_hash : String
  curr_hash : String
  timestamp : String
  system_id : String
  request_id : String
  client_ip : Option String
  user_agent : Option String
  record_hmac : String
deriving DecidableEq

/-- The SQLite database: the three tables, rows in insertion order. -/
structure Store where
  cases : List Case := []
  versions : List FileVersion := []
  events : List PEvent := []
deriving DecidableEq

/-- The process environment threaded through the engine: the HMAC key and
system identity loaded by `init_provenance`, the clock (`_utc_timestamp`),
fresh UUIDs (`uuid.uuid4`), `os.path.getsize` and `mimetypes.guess_type`. -/
structure Env where
  key : List Nat
  system_id : String
  now : String
  fresh_uuid : String
  getsize : String → Int
  guessMime : String → Option String

/-- `_row_to_dict` on a `provenance_events` row: every column key is present;
nullable columns carry `NULL` as Python `None`. -/
def toRec (e : PEvent) : EventRec :=
  { id := some e.id, case_id := some e.case_id,
    file_version_id := e.file_version_id, action := some e.action,
    file_hash := some e.file_hash, prev_hash := some e.prev_hash,
    curr_hash := some e.curr_hash, timestamp := some e.timestamp,
    system_id := some e.system_id, request_id := some e.request_id,
    client_ip := e.client_ip, user_agent := e.user_agent,
    record_hmac := some e.record_hmac }

/-- Insert into a list kept descending by `key`, stable for equal keys. -/
def insertDescBy (key : α → Int) (x : α) : List α → List α
  | [] => [x]
  | y :: t => if key y < key x then x :: y :: t else y :: insertDescBy key x t

/-- Sort a list descending by `key` (`ORDER BY key DESC`). -/
def sortDescBy (key : α → Int) : List α → List α
  | [] => []
  | x :: t => insertDescBy key x (sortDescBy key t)

/-- Insert into a list kept ascending by `key`, stable for equal keys. -/
def insertAscBy (key : α → Int) (x : α) : List α → List α
  | [] => [x]
  | y :: t => if key x < key y then x :: y :: t else y :: insertAscBy key x t

/-- Sort a list ascending by `key` (`ORDER BY key ASC`). -/
def sortAscBy (key : α → Int) : List α → List α
  | [] => []
  | x :: t => insertAscBy key x (sortAscBy key t)

/-- The next `AUTOINCREMENT` row id: strictly above every id ever used;
with no deletions this is `max id + 1`, starting from 1. -/
def nextId (ids : List Int) : Int := ids.foldl max 0 + 1

/-- `get_case`: `SELECT * FROM cases WHERE id = ?`, first row or none. -/
def get_case (s : Store) (case_id : Int) : Option Case :=
  s.cases.find? (fun c => c.id == case_id)

/-- `get_latest_case_by_filename`: `SELECT * FROM cases WHERE filename = ?
ORDER BY id DESC LIMIT 1`. -/
def get_latest_case_by_filename (s : Store) (filename : String) : Option Case :=
  (sortDescBy (fun c => c.id) (s.cases.filter (fun c => c.filename == filename))).head?

/-- `list_provenance_events`: `SELECT * FROM provenance_events WHERE
case_id = ? ORDER BY id ASC`. -/
def list_provenance_events (s : Store) (case_id : Int) : List PEvent :=
  sortAscBy (fun e => e.id) (s.events.filter (fun e => e.case_id == case_id))

/-- `get_latest_file_version`: `SELECT * FROM file_versions WHERE case_id = ?
ORDER BY version DESC LIMIT 1`. -/
def get_latest_file_version (s : Store) (case_id : Int) : Option FileVersion :=
  (sortDescBy (fun v => v.version) (s.versions.filter (fun v => v.case_id == case_id))).head?

/-- The `SELECT * FROM provenance_events WHERE case_id = ? ORDER BY id DESC
LIMIT 1` lookup inside `append_provenance_event`. -/
def lastEventOf (s : Store) (case_id : Int) : Option PEvent :=
  (sortDescBy (fun e => e.id) (s.events.filter (fun e => e.case_id == case_id))).head?

/-- `get_or_create_case_by_filename` from `provenance_engine.py`: return the
newest case for the filename, or insert a fresh one. -/
def get_or_create_case_by_filename (env : Env) (s : Store) (filename : String) :
    Case × Store :=
  match get_latest_case_by_filename s filename with
  | some c => (c, s)
  | none =>
    let c : Case := { id := nextId (s.cases.map (fun c => c.id)),
                      case_uuid := env.fresh_uuid, filename := filename,
                      created_time := env.now, system_id := env.system_id }
    (c, { s with cases := s.cases ++ [c] })

/-- `create_file_version` from `provenance_engine.py`: allocate
`COALESCE(MAX(version), 0) + 1` for the case and insert. -/
def create_file_version (env : Env) (s : Store) (case_id : Int)
    (stored_path file_hash : String) (file_size : Int)
    (mime_type : Option String) : FileVersion × Store :=
  let next_version :=
    ((s.versions.filter (fun v => v.case_id == case_id)).map (fun v => v.version)).foldl max 0 + 1
  let v : FileVersion := { id := nextId (s.versions.map (fun v => v.id)),
                           case_id := case_id, version := next_version,
                           stored_path := stored_path, file_hash := file_hash,
                           file_size := file_size, mime_type := mime_type,
                           upload_time := env.now, system_id := env.system_id }
  (v, { s with versions := s.versions ++ [v] })

/-- `append_provenance_event` from `provenance_engine.py`. -/
def append_provenance_event (env : Env) (s : Store) (case_id : Int)
    (file_version_id : Option Int) (action file_hash request_id : String)
    (client_ip user_agent : Option String) : PEvent × Store :=
  let prev_hash :=
    match lastEventOf s case_id with
    | some e => e.curr_hash
    | none => GENESIS_PREV_HASH
  let core : List (String × JVal) :=
    [("case_id", .n case_id),
     ("file_version_id", optIntJ file_version_id),
     ("action", .s action),
     ("file_hash", .s file_hash),
     ("prev_hash", .s prev_hash),
     ("timestamp", .s env.now),
     ("system_id", .s env.system_id),
     ("request_id", .s request_id),
     ("client_ip", optStrJ client_ip),
     ("user_agent", optStrJ user_agent)]
  let curr_hash := compute_record_hash core
  let record_hmac := compute_record_hmac env.key curr_hash
  let ev : PEvent := { id := nextId (s.events.map (fun e => e.id)),
                       case_id := case_id, file_version_id := file_version_id,
                       action := action, file_hash := file_hash,
                       prev_hash := prev_hash, curr_hash := curr_hash,
                       timestamp := env.now, system_id := env.system_id,
                       request_id := request_id, client_ip := client_ip,
                       user_agent := user_agent, record_hmac := record_hmac }
  (ev, { s with events := s.events ++ [ev] })

/-- `validate_case_chain` from `provenance_engine.py`. -/
def validate_case_chain (env : Env) (s : Store) (case_id : Int) :
    ChainValidationResult :=
  validate_chain ((list_provenance_events s case_id).map toRec) env.key

/-- `register_upload_as_new_version` from `provenance_engine.py`:
get-or-create the case, insert the next file version, append the `CREATE`
event. -/
def register_upload_as_new_version (env : Env) (s : Store)
    (filename stored_path file_hash request_id : String)
    (client_ip user_agent : Option String) :
    (Case × FileVersion × PEvent) × Store :=
  let r1 := get_or_create_case_by_filename env s filename
  let file_size := env.getsize stored_path
  let mime_type := env.guessMime filename
  let r2 := create_file_version env r1.2 r1.1.id stored_path file_hash file_size mime_type
  let r3 := append_provenance_event env r2.2 r1.1.id (some r2.1.id)
    "CREATE" file_hash request_id client_ip user_agent
  ((r1.1, r2.1, r3.1), r3.2)

/-! ## The verifier (`verifier.py`) -/

/-- `VerificationResult` from `verifier.py`. -/
structure VerificationResult where
  status : String
  reason : String
  expected_sha256 : Option String := none
  observed_sha256 : Option String := none
  case_id : Option Int := none
deriving DecidableEq

/-- How Python renders `Optional[str]` inside an f-string. -/
def optStrPy : Option String → String
  | some v => v
  | none => "None"

/-- The tail of `verify_file_against_provenance` once a case id has been
resolved: validate the chain, fetch the latest version, append the `VERIFY`
audit event, compare hashes. -/
def verifyResolved (env : Env) (s : Store) (observed : String)
    (resolved_case_id : Int) (request_id : String)
    (client_ip user_agent : Option String) : VerificationResult × Store :=
  let chain := validate_case_chain env s resolved_case_id
  if chain.ok = false then
    let status := if chain.failure_type == some .CHAIN then "TAMPERED_CHAIN" else "TAMPERED_HMAC"
    (⟨status, "Provenance chain validation failed: " ++ optStrPy chain.error,
      none, some observed, some resolved_case_id⟩, s)
  else
    match get_latest_file_version s resolved_case_id with
    | none =>
      (⟨"MISSING_HISTORY", "No file versions exist for this case",
        none, some observed, some resolved_case_id⟩, s)
    | some latest_version =>
      let expected := latest_version.file_hash
      let s1 := (append_provenance_event env s resolved_case_id none "VERIFY"
        observed request_id client_ip user_agent).2
      if observed = expected then
        (⟨"VALID", "File hash matches the latest stored file version",
          some expected, some observed, some resolved_case_id⟩, s1)
      else
        (⟨"TAMPERED_FILE", "File hash does NOT match the latest stored file version",
          some expected, some observed, some resolved_case_id⟩, s1)

/-- `verify_file_against_provenance` from `verifier.py`, taking the byte
contents of the file at `file_path`. -/
def verify_file_against_provenance (env : Env) (s : Store)
    (file_contents : List Nat) (filename : String) (case_id : Option Int)
    (request_id : String) (client_ip user_agent : Option String) :
    VerificationResult × Store :=
  let observed := sha256_file file_contents
  match case_id with
  | some cid =>
    match get_case s cid with
    | none =>
      (⟨"MISSING_HISTORY", "Provided case_id does not exist",
        none, some observed, none⟩, s)
    | some case => verifyResolved env s observed case.id request_id client_ip user_agent
  | none =>
    match get_latest_case_by_filename s filename with
    | none =>
      (⟨"MISSING_HISTORY", "No case exists for this filename",
        none, some observed, none⟩, s)
    | some case => verifyResolved env s observed case.id request_id client_ip user_agent

/-! ## System identity bootstrap (`load_or_create_system_id`) -/

/-- Python whitespace stripped by `str.strip` (the ASCII range). -/
def pySpace (c : Char) : Bool :=
  c == ' ' || c == '\t' || c == '\n' || c == '\r' || c == '\x0b' || c == '\x0c'

/-- `str.strip()` on ASCII whitespace. -/
def pyStrip (s : String) : String :=
  String.mk ((s.data.dropWhile pySpace).reverse.dropWhile pySpace |>.reverse)

/-- The observable outcome of `load_or_create_system_id`. -/
inductive OsError where
  | fileExists
deriving DecidableEq

/-- `load_or_create_system_id` from `provenance_engine.py`, over the state of
`system_id.txt` (`none` when absent) and the fresh `secrets.token_hex(8)`
value.  Returns the identity together with the new file state, or the
`FileExistsError` that `os.open(..., O_CREAT | O_EXCL)` raises when the file
is already present. -/
def load_or_create_system_id (file : Option String) (freshHex : String) :
    Except OsError (String × Option String) :=
  let fallthrough : Except OsError (String × Option String) :=
    let system_id := "host-" ++ freshHex
    match file with
    | some _ => .error .fileExists
    | none => .ok (system_id, some system_id)
  match file with
  | some contents =>
    let system_id := pyStrip contents
    if system_id ≠ "" then .ok (system_id, file) else fallthrough
  | none => fallthrough

/-! ## Specification-side definitions

These follow the words of the specification and of the claims, to be compared
with the embedded source functions above. -/

/-- The §4.1 event core of a stored event row, the fields in the spec's
enumeration order (`action, case_id, client_ip, file_hash, file_version_id,
prev_hash, request_id, system_id, timestamp, user_agent`). -/
def specCoreFields (e : PEvent) : List (String × JVal) :=
  [("action", .s e.action),
   ("case_id", .n e.case_id),
   ("client_ip", optStrJ e.client_ip),
   ("file_hash", .s e.file_hash),
   ("file_version_id", optIntJ e.file_version_id),
   ("prev_hash", .s e.prev_hash),
   ("request_id", .s e.request_id),
   ("system_id", .s e.system_id),
   ("timestamp", .s e.timestamp),
   ("user_agent", optStrJ e.user_agent)]

/-- Spec: an event is sealed iff its `curr_hash` is the SHA-256 of the
canonical JSON of its core and its `record_hmac` is the HMAC-SHA-256 of the
key over the `curr_hash` hex string. -/
def specEventSealed (key : List Nat) (e : PEvent) : Bool :=
  (e.curr_hash == sha256_bytes (utf8Encode (canonical_json (specCoreFields e)))) &&
  (e.record_hmac == hmac_sha256_hex key e.curr_hash)

/-- Spec: the first event's `prev_hash` is `"GENESIS"` and every later
event's `prev_hash` equals the previous event's `curr_hash`. -/
def specLinked (prev : String) : List PEvent → Bool
  | [] => true
  | e :: t => (e.prev_hash == prev) && specLinked e.curr_hash t

/-- Spec (claim C1): the whole-chain validity condition. -/
def specChainOk (key : List Nat) (es : List PEvent) : Bool :=
  specLinked GENESIS_PREV_HASH es && es.all (specEventSealed key)

/-- Spec (claim C2): all ten required fields are present on a record. -/
def requiredPresent (r : EventRec) : Bool :=
  r.id.isSome && r.case_id.isSome && r.action.isSome && r.file_hash.isSome &&
  r.prev_hash.isSome && r.curr_hash.isSome && r.timestamp.isSome &&
  r.system_id.isSome && r.request_id.isSome && r.record_hmac.isSome

/-- Spec (claim C2): how one event is classified, given the expected
predecessor hash: `CHAIN` for a missing required field, a broken `prev_hash`
link, or a `curr_hash` that is not the recomputed SHA-256 of the core; `HMAC`
only when those three are in order but the stored `record_hmac` differs from
the HMAC over the `curr_hash`. -/
def specClassify (key : List Nat) (prev : String) (r : EventRec) : Option FKind :=
  if requiredPresent r = false then some .CHAIN
  else if r.prev_hash ≠ some prev then some .CHAIN
  else if r.curr_hash ≠ some (sha256_bytes (utf8Encode (canonical_json (coreOfRec r)))) then
    some .CHAIN
  else if r.record_hmac ≠ some (hmac_sha256_hex key (r.curr_hash.getD "")) then some .HMAC
  else none

/-- Spec (claim C2): the first failure in index order, with its index. -/
def specFirstFailureGo (key : List Nat) (prev : String) :
    List EventRec → Option (Nat × FKind)
  | [] => none
  | r :: t =>
    match specClassify key prev r with
    | some k => some (0, k)
    | none => (specFirstFailureGo key (r.curr_hash.getD "") t).map (fun p => (p.1 + 1, p.2))

/-- Spec (claim C2): the first failure of a chain, scanned from `"GENESIS"`. -/
def specFirstFailure (key : List Nat) (records : List EventRec) : Option (Nat × FKind) :=
  specFirstFailureGo key GENESIS_PREV_HASH records

/-- How much of the record list is inspected: everything when there is no
failure, the prefix through the failing index otherwise. -/
def stopLen : Option (Nat × FKind) → Nat → Nat
  | none, n => n
  | some p, _ => p.1 + 1

/-- Which case id the verifier resolves: by `case_id` when one is given, by
newest case for the filename otherwise. -/
def resolvedCaseId (s : Store) (filename : String) (case_id : Option Int) : Option Int :=
  match case_id with
  | some cid => (get_case s cid).map (fun c => c.id)
  | none => (get_latest_case_by_filename s filename).map (fun c => c.id)

/-- Non-strict key order on pairs: the right key is not below the left. -/
def pairLe (p q : String × JVal) : Prop := keyLt q.1 p.1 = false

/-- Strict key order on pairs. -/
def pairLt (p q : String × JVal) : Prop := keyLt p.1 q.1 = true

/-! ## Concrete fixtures for the witnesses -/

/-- A concrete process environment. -/
def env0 : Env :=
  { key := [11, 22, 33], system_id := "sys-0", now := "2026-01-01T00:00:00+00:00",
    fresh_uuid := "00000000-0000-4000-8000-000000000000",
    getsize := fun _ => 5, guessMime := fun _ => none }

/-- The empty store. -/
def store0 : Store := {}

/-- A concrete case row. -/
def case1 : Case :=
  { id := 1, case_uuid := "u-1", filename := "doc.bin",
    created_time := "2026-01-01T00:00:00+00:00", system_id := "sys-0" }

/-- A concrete file version row for `case1`. -/
def version1 : FileVersion :=
  { id := 1, case_id := 1, version := 1, stored_path := "p", file_hash := "HASH-A",
    file_size := 5, mime_type := none,
    upload_time := "2026-01-01T00:00:00+00:00", system_id := "sys-0" }

/-- A store holding `case1` and `version1` with an empty (hence valid)
event chain. -/
def storeA : Store := { cases := [case1], versions := [version1], events := [] }

/-- An event row whose `prev_hash` is not `"GENESIS"`: its chain is broken
at the link check, before any hash is recomputed. -/
def badEvent : PEvent :=
  { id := 1, case_id := 1, file_version_id := none, action := "CREATE",
    file_hash := "h", prev_hash := "BAD", curr_hash := "c",
    timestamp := "T", system_id := "sys-0", request_id := "r",
    client_ip := none, user_agent := none, record_hmac := "m" }

/-- A store whose only chain is broken. -/
def storeB : Store := { cases := [case1], versions := [version1], events := [badEvent] }

/-! ## Sanity checks of the crypto layer (known test vectors) -/

example :
    sha256_bytes (utf8Encode "abc") =
      "ba7816bf8f01cfea414140de5dae2223b00361a396177a9cb410ff61f20015ad" := by decide

example :
    hmac_sha256_hex (utf8Encode "Jefe") "what do ya want for nothing?" =
      "5bdcc146bf60754e6a042426089575c75a003f089d2739839dec58b964ec3843" := by decide

example :
    canonical_json [("b", .n (-2)), ("a", .s "x"), ("c", .null)] =
      "\x7b\"a\":\"x\",\"b\":-2,\"c\":null\x7d" := by decide

/-! ## Order lemmas for the key sort -/

theorem keyLtGo_cons_iff {a b : Char} {as bs : List Char} :
    keyLtGo (a :: as) (b :: bs) = true ↔
      a.toNat < b.toNat ∨ (a.toNat = b.toNat ∧ keyLtGo as bs = true) := by
  simp only [keyLtGo]
  split_ifs with h1 h2
  · simp [h1]
  · simp only [Bool.false_eq_true, false_iff]
    rintro (h | ⟨h, _⟩) <;> omega
  · constructor
    · intro h
      exact Or.inr ⟨by omega, h⟩
    · rintro (h | ⟨_, h⟩)
      · omega
      · exact h

theorem keyLtGo_asymm : ∀ as bs, keyLtGo as bs = true → keyLtGo bs as = true → False
  | [], [], h, _ => by simp [keyLtGo] at h
  | [], _ :: _, _, h2 => by simp [keyLtGo] at h2
  | _ :: _, [], h1, _ => by simp [keyLtGo] at h1
  | a :: as, b :: bs, h1, h2 => by
    rw [keyLtGo_cons_iff] at h1 h2
    rcases h1 with h1 | ⟨e1, h1⟩ <;> rcases h2 with h2 | ⟨e2, h2⟩
    · omega
    · omega
    · omega
    · exact keyLtGo_asymm as bs h1 h2

theorem keyLtGo_trans : ∀ as bs cs, keyLtGo as bs = true → keyLtGo bs cs = true →
    keyLtGo as cs = true
  | [], [], _, _, h2 => h2
  | [], _ :: _, [], _, h2 => by simp [keyLtGo] at h2
  | [], _ :: _, _ :: _, _, _ => by simp [keyLtGo]
  | _ :: _, [], _, h1, _ => by simp [keyLtGo] at h1
  | _ :: _, _ :: _, [], _, h2 => by simp [keyLtGo] at h2
  | a :: as, b :: bs, c :: cs, h1, h2 => by
    rw [keyLtGo_cons_iff] at h1 h2 ⊢
    rcases h1 with h1 | ⟨e1, h1⟩ <;> rcases h2 with h2 | ⟨e2, h2⟩
    · exact Or.inl (by omega)
    · exact Or.inl (by omega)
    · exact Or.inl (by omega)
    · exact Or.inr ⟨by omega, keyLtGo_trans as bs cs h1 h2⟩

theorem keyLtGo_conn : ∀ as bs, keyLtGo as bs = false → keyLtGo bs as = false → as = bs
  | [], [], _, _ => rfl
  | [], _ :: _, h1, _ => by simp [keyLtGo] at h1
  | _ :: _, [], _, h2 => by simp [keyLtGo] at h2
  | a :: as, b :: bs, h1, h2 => by
    have h1' : ¬ (a.toNat < b.toNat ∨ (a.toNat = b.toNat ∧ keyLtGo as bs = true)) := by
      rw [← keyLtGo_cons_iff]
      simp [h1]
    have h2' : ¬ (b.toNat < a.toNat ∨ (b.toNat = a.toNat ∧ keyLtGo bs as = true)) := by
      rw [← keyLtGo_cons_iff]
      simp [h2]
    push_neg at h1' h2'
    have e : a.toNat = b.toNat := by omega
    have hr1 : keyLtGo as bs = false := by
      cases hc : keyLtGo as bs with
      | false => rfl
      | true => exact absurd hc (h1'.2 e)
    have hr2 : keyLtGo bs as = false := by
      cases hc : keyLtGo bs as with
      | false => rfl
      | true => exact absurd hc (h2'.2 e.symm)
    have hc : a = b := Char.ext (UInt32.ext e)
    rw [hc, keyLtGo_conn as bs hr1 hr2]

theorem keyLt_asymm {a b : String} (h : keyLt a b = true) : keyLt b a = false := by
  cases hc : keyLt b a with
  | false => rfl
  | true => exact (keyLtGo_asymm a.data b.data h hc).elim

theorem keyLt_trans {a b c : String} (h1 : keyLt a b = true) (h2 : keyLt b c = true) :
    keyLt a c = true :=
  keyLtGo_trans a.data b.data c.data h1 h2

theorem keyLt_conn {a b : String} (h1 : keyLt a b = false) (h2 : keyLt b a = false) :
    a = b := by
  rcases a with ⟨da⟩
  rcases b with ⟨db⟩
  exact congrArg String.mk (keyLtGo_conn da db h1 h2)

/-! ## Permutation and sortedness of the canonical key sort -/

theorem insertPair_perm (p : String × JVal) :
    ∀ l, (insertPair p l).Perm (p :: l)
  | [] => List.Perm.refl _
  | q :: t => by
    simp only [insertPair]
    split_ifs
    · exact List.Perm.refl _
    · exact ((insertPair_perm p t).cons q).trans (List.Perm.swap p q t)

theorem sortPairs_perm : ∀ l, (sortPairs l).Perm l
  | [] => List.Perm.refl _
  | p :: t => (insertPair_perm p (sortPairs t)).trans ((sortPairs_perm t).cons p)

theorem mem_insertPair {x p : String × JVal} {l : List (String × JVal)}
    (h : x ∈ insertPair p l) : x = p ∨ x ∈ l := by
  have := (insertPair_perm p l).mem_iff.mp h
  simpa using this

theorem pairwise_insertPair {p : String × JVal} :
    ∀ {l}, l.Pairwise pairLe → (insertPair p l).Pairwise pairLe
  | [], _ => List.Pairwise.cons (fun x hx => (List.not_mem_nil x hx).elim) List.Pairwise.nil
  | q :: t, h => by
    rcases List.pairwise_cons.mp h with ⟨hq, ht⟩
    simp only [insertPair]
    split_ifs with hc
    · refine List.pairwise_cons.mpr ⟨?_, h⟩
      intro x hx
      rcases List.mem_cons.mp hx with rfl | hx
      · exact keyLt_asymm hc
      · cases hxp : keyLt x.1 p.1 with
        | false => exact hxp
        | true => exact absurd (hq x hx) (by simp [pairLe, keyLt_trans hxp hc])
    · refine List.pairwise_cons.mpr ⟨?_, pairwise_insertPair ht⟩
      intro x hx
      rcases mem_insertPair hx with rfl | hx
      · simpa [pairLe] using hc
      · exact hq x hx

theorem pairwise_sortPairs : ∀ l, (sortPairs l).Pairwise pairLe
  | [] => List.Pairwise.nil
  | _p :: t => pairwise_insertPair (pairwise_sortPairs t)

theorem pairwise_lt_sortPairs {l : List (String × JVal)}
    (hnd : (l.map Prod.fst).Nodup) : (sortPairs l).Pairwise pairLt := by
  have hle := pairwise_sortPairs l
  have hnd' : ((sortPairs l).map Prod.fst).Nodup :=
    (((sortPairs_perm l).map Prod.fst).symm).nodup hnd
  have hne : (sortPairs l).Pairwise (fun p q : String × JVal => p.1 ≠ q.1) :=
    List.pairwise_map.mp hnd'
  refine (hle.and hne).imp ?_
  rintro p q ⟨h1, h2⟩
  cases hc : keyLt p.1 q.1 with
  | true => exact hc
  | false => exact absurd (keyLt_conn hc h1) h2

theorem sortPairs_eq_of_perm {l₁ l₂ : List (String × JVal)}
    (hp : l₁.Perm l₂) (hnd : (l₁.map Prod.fst).Nodup) :
    sortPairs l₁ = sortPairs l₂ := by
  haveI : IsAntisymm (String × JVal) pairLt :=
    ⟨fun a b h1 h2 => absurd h2 (by simp [pairLt, keyLt_asymm h1])⟩
  have hnd₂ : (l₂.map Prod.fst).Nodup := ((hp.map Prod.fst)).nodup hnd
  refine List.eq_of_perm_of_sorted (r := pairLt) ?_ ?_ ?_
  · exact (sortPairs_perm l₁).trans (hp.trans (sortPairs_perm l₂).symm)
  · exact pairwise_lt_sortPairs hnd
  · exact pairwise_lt_sortPairs hnd₂

/-! ## Bridges between the code-side and spec-side chain checks -/

theorem coreOfRec_toRec (e : PEvent) :
    canonical_json (coreOfRec (toRec e)) = canonical_json (specCoreFields e) := rfl

theorem requiredPresent_iff {r : EventRec} :
    requiredPresent r = true ↔ firstMissing r = none := by
  rcases r with ⟨f1, f2, f3, f4, f5, f6, f7, f8, f9, f10, f11, f12, f13⟩
  cases f1 <;> cases f2 <;> cases f4 <;> cases f5 <;> cases f6 <;> cases f7 <;>
    cases f8 <;> cases f9 <;> cases f10 <;> cases f13 <;>
    simp [requiredPresent, firstMissing]

theorem toRec_firstMissing (e : PEvent) : firstMissing (toRec e) = none := rfl

theorem toRec_prev (e : PEvent) : (toRec e).prev_hash = some e.prev_hash := rfl

theorem toRec_curr (e : PEvent) : (toRec e).curr_hash = some e.curr_hash := rfl

theorem toRec_rhmac (e : PEvent) : (toRec e).record_hmac = some e.record_hmac := rfl

theorem validateFrom_ok_toRec (key : List Nat) :
    ∀ (es : List PEvent) (prev : String) (idx : Nat),
      (validateFrom key prev idx (es.map toRec)).ok =
        (specLinked prev es && es.all (specEventSealed key))
  | [], _, _ => rfl
  | e :: t, prev, idx => by
    have hh : compute_record_hash (coreOfRec (toRec e)) =
        sha256_bytes (utf8Encode (canonical_json (specCoreFields e))) := rfl
    simp only [List.map_cons, validateFrom, toRec_firstMissing, toRec_prev, toRec_curr,
      toRec_rhmac, hh, compute_record_hmac, Option.getD_some, Option.some.injEq, ne_eq,
      specLinked, List.all_cons, specEventSealed]
    by_cases hp : e.prev_hash = prev
    · rw [if_neg (by simp [hp])]
      by_cases hc : e.curr_hash = sha256_bytes (utf8Encode (canonical_json (specCoreFields e)))
      · rw [if_neg (by simp [hc])]
        by_cases hm : e.record_hmac = hmac_sha256_hex key e.curr_hash
        · rw [if_neg (by simp [hc ▸ hm])]
          rw [validateFrom_ok_toRec key t e.curr_hash (idx + 1)]
          simp [hp, hc, hm, Bool.and_assoc]
        · rw [if_pos (by simp [hc ▸ hm])]
          simp [beq_eq_false_iff_ne.mpr hm]
      · rw [if_pos (by simp [hc])]
        simp [beq_eq_false_iff_ne.mpr hc]
    · rw [if_pos (by simp [hp])]
      simp [beq_eq_false_iff_ne.mpr hp]

theorem specFFGo_cons_some {key : List Nat} {prev : String} {r : EventRec}
    {t : List EventRec} {k : FKind} (h : specClassify key prev r = some k) :
    specFirstFailureGo key prev (r :: t) = some (0, k) := by
  simp [specFirstFailureGo, h]

theorem specFFGo_cons_none {key : List Nat} {prev : String} {r : EventRec}
    {t : List EventRec} (h : specClassify key prev r = none) :
    specFirstFailureGo key prev (r :: t) =
      (specFirstFailureGo key (r.curr_hash.getD "") t).map (fun p => (p.1 + 1, p.2)) := by
  simp [specFirstFailureGo, h]

theorem validateFrom_spec (key : List Nat) :
    ∀ (es : List EventRec) (prev : String) (idx : Nat),
      (validateFrom key prev idx es).ok = (specFirstFailureGo key prev es).isNone
      ∧ (validateFrom key prev idx es).failure_type =
          (specFirstFailureGo key prev es).map (fun p => p.2)
      ∧ validateFrom key prev idx es =
          validateFrom key prev idx
            (es.take (stopLen (specFirstFailureGo key prev es) es.length))
  | [], _, _ => ⟨rfl, rfl, rfl⟩
  | r :: t, prev, idx => by
    have hcc : sha256_bytes (utf8Encode (canonical_json (coreOfRec r))) =
        compute_record_hash (coreOfRec r) := rfl
    cases hfm : firstMissing r with
    | some f =>
      have hreq : requiredPresent r = false := by
        cases hx : requiredPresent r with
        | false => rfl
        | true => simp [requiredPresent_iff.mp hx] at hfm
      have hcl : specClassify key prev r = some FKind.CHAIN := by
        simp [specClassify, hreq]
      have hv : ∀ l, validateFrom key prev idx (r :: l) =
          ⟨false, some (msgMissing f idx), some FKind.CHAIN⟩ := fun l => by
        simp [validateFrom, hfm]
      refine ⟨?_, ?_, ?_⟩ <;>
        simp [hv, specFFGo_cons_some hcl, stopLen, List.take]
    | none =>
      have hreq : requiredPresent r = true := requiredPresent_iff.mpr hfm
      by_cases hp : r.prev_hash = some prev
      · by_cases hc : r.curr_hash = some (compute_record_hash (coreOfRec r))
        · by_cases hm : r.record_hmac =
              some (compute_record_hmac key (compute_record_hash (coreOfRec r)))
          · -- every check passes at this record
            have hcl : specClassify key prev r = none := by
              simp [specClassify, hreq, hp, hcc, hc, hm, compute_record_hmac,
                Option.getD_some]
            have hv : validateFrom key prev idx (r :: t) =
                validateFrom key (r.curr_hash.getD "") (idx + 1) t := by
              simp only [validateFrom, hfm]
              rw [if_neg (by simp [hp]), if_neg (by simp [hc]), if_neg (by simp [hm])]
            obtain ⟨ih1, ih2, ih3⟩ := validateFrom_spec key t (r.curr_hash.getD "") (idx + 1)
            have hgo := specFFGo_cons_none (t := t) hcl
            refine ⟨?_, ?_, ?_⟩
            · rw [hv, ih1, hgo]
              cases specFirstFailureGo key (r.curr_hash.getD "") t <;> simp
            · rw [hv, ih2, hgo]
              cases specFirstFailureGo key (r.curr_hash.getD "") t <;> simp
            · cases hsub : specFirstFailureGo key (r.curr_hash.getD "") t with
              | none =>
                have hlen : stopLen (specFirstFailureGo key prev (r :: t)) (r :: t).length
                    = (r :: t).length := by
                  rw [hgo, hsub]
                  rfl
                rw [hlen, List.take_length]
              | some p =>
                have hv2 : validateFrom key prev idx (r :: t.take (p.1 + 1)) =
                    validateFrom key (r.curr_hash.getD "") (idx + 1) (t.take (p.1 + 1)) := by
                  simp only [validateFrom, hfm]
                  rw [if_neg (by simp [hp]), if_neg (by simp [hc]), if_neg (by simp [hm])]
                have hlen : stopLen (specFirstFailureGo key prev (r :: t)) (r :: t).length
                    = p.1 + 2 := by
                  rw [hgo, hsub]
                  rfl
                rw [hlen, List.take_succ_cons, hv, hv2, ih3, hsub]
                simp [stopLen]
          · -- HMAC mismatch, everything before it in order
            have hm' : ¬ r.record_hmac =
                some (hmac_sha256_hex key (compute_record_hash (coreOfRec r))) := hm
            have hcl : specClassify key prev r = some FKind.HMAC := by
              simp [specClassify, hreq, hp, hcc, hc, hm', Option.getD_some]
            have hv : ∀ l, validateFrom key prev idx (r :: l) =
                ⟨false, some (msgHmacMismatch idx), some FKind.HMAC⟩ := fun l => by
              simp only [validateFrom, hfm]
              rw [if_neg (by simp [hp]), if_neg (by simp [hc]), if_pos (by simp [hm])]
            refine ⟨?_, ?_, ?_⟩ <;>
              simp [hv, specFFGo_cons_some hcl, stopLen, List.take]
        · -- stored curr_hash differs from the recomputed hash
          have hcl : specClassify key prev r = some FKind.CHAIN := by
            simp [specClassify, hreq, hp, hcc, hc]
          have hv : ∀ l, validateFrom key prev idx (r :: l) =
              ⟨false, some (msgHashMismatch idx), some FKind.CHAIN⟩ := fun l => by
            simp only [validateFrom, hfm]
            rw [if_neg (by simp [hp]), if_pos (by simp [hc])]
          refine ⟨?_, ?_, ?_⟩ <;>
            simp [hv, specFFGo_cons_some hcl, stopLen, List.take]
      · -- broken prev_hash link
        have hcl : specClassify key prev r = some FKind.CHAIN := by
          simp [specClassify, hreq, hp]
        have hv : ∀ l, validateFrom key prev idx (r :: l) =
            ⟨false, some (msgChainBroken idx prev), some FKind.CHAIN⟩ := fun l => by
          simp only [validateFrom, hfm]
          rw [if_pos (by simp [hp])]
        refine ⟨?_, ?_, ?_⟩ <;>
          simp [hv, specFFGo_cons_some hcl, stopLen, List.take]

/-! ## Helper lemmas about the verifier and the store -/

theorem validate_chain_fail_kind {records : List EventRec} {key : List Nat}
    (h : (validate_chain records key).ok = false) :
    (validate_chain records key).failure_type = some FKind.CHAIN ∨
      (validate_chain records key).failure_type = some FKind.HMAC := by
  obtain ⟨h1, h2, _⟩ := validateFrom_spec key records GENESIS_PREV_HASH 0
  rw [validate_chain] at h ⊢
  rw [h1] at h
  rw [h2]
  cases hgo : specFirstFailureGo key GENESIS_PREV_HASH records with
  | none => rw [hgo] at h; simp at h
  | some p =>
    cases hk : p.2 with
    | CHAIN => exact Or.inl (by simp [hk])
    | HMAC => exact Or.inr (by simp [hk])

theorem verify_resolves {env : Env} {s : Store} {contents : List Nat}
    {filename : String} {case_arg : Option Int} {request_id : String}
    {client_ip user_agent : Option String} {cid : Int}
    (hres : resolvedCaseId s filename case_arg = some cid) :
    verify_file_against_provenance env s contents filename case_arg request_id
        client_ip user_agent =
      verifyResolved env s (sha256_file contents) cid request_id client_ip user_agent := by
  unfold verify_file_against_provenance
  cases case_arg with
  | some c0 =>
    cases hg : get_case s c0 with
    | none => simp [resolvedCaseId, hg] at hres
    | some cc =>
      have hid : cc.id = cid := by simpa [resolvedCaseId, hg] using hres
      simp [hg, hid]
  | none =>
    cases hg : get_latest_case_by_filename s filename with
    | none => simp [resolvedCaseId, hg] at hres
    | some cc =>
      have hid : cc.id = cid := by simpa [resolvedCaseId, hg] using hres
      simp [hg, hid]

theorem verifyResolved_ok {env : Env} {s : Store} {observed : String} {cid : Int}
    {request_id : String} {client_ip user_agent : Option String} {lv : FileVersion}
    (hok : (validate_case_chain env s cid).ok = true)
    (hlv : get_latest_file_version s cid = some lv) :
    verifyResolved env s observed cid request_id client_ip user_agent =
      ((if observed = lv.file_hash then
          ⟨"VALID", "File hash matches the latest stored file version",
            some lv.file_hash, some observed, some cid⟩
        else
          ⟨"TAMPERED_FILE", "File hash does NOT match the latest stored file version",
            some lv.file_hash, some observed, some cid⟩),
       (append_provenance_event env s cid none "VERIFY" observed request_id
          client_ip user_agent).2) := by
  unfold verifyResolved
  simp only [hok, hlv, Bool.true_eq_false, if_false]
  by_cases h : observed = lv.file_hash <;> simp [h]

theorem verifyResolved_fail {env : Env} {s : Store} {observed : String} {cid : Int}
    {request_id : String} {client_ip user_agent : Option String}
    (hbad : (validate_case_chain env s cid).ok = false) :
    verifyResolved env s observed cid request_id client_ip user_agent =
      (⟨(if (validate_case_chain env s cid).failure_type == some FKind.CHAIN then
            "TAMPERED_CHAIN" else "TAMPERED_HMAC"),
        "Provenance chain validation failed: " ++
          optStrPy (validate_case_chain env s cid).error,
        none, some observed, some cid⟩, s) := by
  unfold verifyResolved
  simp [hbad]

theorem insertDescBy_perm {α : Type} (key : α → Int) (x : α) :
    ∀ l, (insertDescBy key x l).Perm (x :: l)
  | [] => List.Perm.refl _
  | y :: t => by
    simp only [insertDescBy]
    split_ifs
    · exact List.Perm.refl _
    · exact ((insertDescBy_perm key x t).cons y).trans (List.Perm.swap x y t)

theorem sortDescBy_perm {α : Type} (key : α → Int) :
    ∀ l, (sortDescBy key l).Perm l
  | [] => List.Perm.refl _
  | x :: t => (insertDescBy_perm key x (sortDescBy key t)).trans ((sortDescBy_perm key t).cons x)

theorem insertAscBy_perm {α : Type} (key : α → Int) (x : α) :
    ∀ l, (insertAscBy key x l).Perm (x :: l)
  | [] => List.Perm.refl _
  | y :: t => by
    simp only [insertAscBy]
    split_ifs
    · exact List.Perm.refl _
    · exact ((insertAscBy_perm key x t).cons y).trans (List.Perm.swap x y t)

theorem sortAscBy_perm {α : Type} (key : α → Int) :
    ∀ l, (sortAscBy key l).Perm l
  | [] => List.Perm.refl _
  | x :: t => (insertAscBy_perm key x (sortAscBy key t)).trans ((sortAscBy_perm key t).cons x)

theorem get_latest_case_props {s : Store} {fn : String} {c : Case}
    (h : get_latest_case_by_filename s fn = some c) :
    c.filename = fn ∧ c ∈ s.cases := by
  unfold get_latest_case_by_filename at h
  have hmem : c ∈ sortDescBy (fun c => c.id) (s.cases.filter (fun c => c.filename == fn)) := by
    cases hl : sortDescBy (fun c => c.id) (s.cases.filter (fun c => c.filename == fn)) with
    | nil => rw [hl] at h; cases h
    | cons a t =>
      rw [hl] at h
      simp only [List.head?_cons, Option.some.injEq] at h
      rw [← h]
      exact List.mem_cons_self a t
  have hmem2 : c ∈ s.cases.filter (fun c => c.filename == fn) :=
    (sortDescBy_perm _ _).mem_iff.mp hmem
  rcases List.mem_filter.mp hmem2 with ⟨hin, hprop⟩
  exact ⟨by simpa using hprop, hin⟩

/-! ## The claims -/

/-- **C1.** For every list of events of a case (stored rows, taken in
ascending-id order) and every HMAC key, `validate_chain` returns `ok = true`
if and only if: the first event's `prev_hash` is the literal `"GENESIS"`,
every later event's `prev_hash` equals the previous event's `curr_hash`,
every event's `curr_hash` equals the SHA-256 of the canonical JSON of its
core fields, and every event's `record_hmac` equals HMAC-SHA-256 of the key
over the `curr_hash` hex string — the conjunction `specChainOk`, built from
the specification's words. -/
theorem c1_validate_chain_iff_spec (events : List PEvent) (hmac_key : List Nat) :
    (validate_chain (events.map toRec) hmac_key).ok = specChainOk hmac_key events := by
  have h := validateFrom_ok_toRec hmac_key events GENESIS_PREV_HASH 0
  simpa [validate_chain, specChainOk] using h

/-- **C2.** `validate_chain` reports exactly the first failure in index
order: its `ok` flag is true precisely when `specFirstFailure` (the
specification-side first-failure scan) finds nothing, its `failure_type` is
the kind of that first failure — `CHAIN` for a missing required field, a
broken `prev_hash` link, or a rewritten `curr_hash`; `HMAC` only when link
and `curr_hash` are in order but `record_hmac` differs — and the whole
result is already determined by the prefix of the records up to and
including the first failing index.  In particular a rewritten `curr_hash` is
classified `CHAIN`, never `HMAC`, by the third branch of `specClassify`. -/
theorem c2_validate_chain_first_failure (records : List EventRec) (hmac_key : List Nat) :
    (validate_chain records hmac_key).ok = (specFirstFailure hmac_key records).isNone
    ∧ (validate_chain records hmac_key).failure_type =
        (specFirstFailure hmac_key records).map (fun p => p.2)
    ∧ validate_chain records hmac_key =
        validate_chain
          (records.take (stopLen (specFirstFailure hmac_key records) records.length))
          hmac_key := by
  exact validateFrom_spec hmac_key records GENESIS_PREV_HASH 0

/-- **C3.** When the case resolves, its chain validates OK and a latest file
version exists, `verify_file_against_provenance` appends exactly one event —
a `VERIFY` event whose `file_hash` is the observed SHA-256 of the input
bytes and whose `file_version_id` is null — and returns `VALID` when the
observed hash equals the latest version's `file_hash`, `TAMPERED_FILE`
otherwise, with `expected_sha256` and `observed_sha256` populated in both
outcomes; the event is appended in both outcomes. -/
theorem c3_verify_appends_audit_event (env : Env) (s : Store) (contents : List Nat)
    (filename : String) (case_arg : Option Int) (request_id : String)
    (client_ip user_agent : Option String) (cid : Int) (lv : FileVersion)
    (hres : resolvedCaseId s filename case_arg = some cid)
    (hok : (validate_case_chain env s cid).ok = true)
    (hlv : get_latest_file_version s cid = some lv) :
    (verify_file_against_provenance env s contents filename case_arg request_id
        client_ip user_agent).2.events =
      s.events ++ [(append_provenance_event env s cid none "VERIFY"
        (sha256_file contents) request_id client_ip user_agent).1]
    ∧ (append_provenance_event env s cid none "VERIFY" (sha256_file contents)
        request_id client_ip user_agent).1.action = "VERIFY"
    ∧ (append_provenance_event env s cid none "VERIFY" (sha256_file contents)
        request_id client_ip user_agent).1.file_hash = sha256_file contents
    ∧ (append_provenance_event env s cid none "VERIFY" (sha256_file contents)
        request_id client_ip user_agent).1.file_version_id = none
    ∧ (verify_file_against_provenance env s contents filename case_arg request_id
        client_ip user_agent).1.status =
      (if sha256_file contents = lv.file_hash then "VALID" else "TAMPERED_FILE")
    ∧ (verify_file_against_provenance env s contents filename case_arg request_id
        client_ip user_agent).1.expected_sha256 = some lv.file_hash
    ∧ (verify_file_against_provenance env s contents filename case_arg request_id
        client_ip user_agent).1.observed_sha256 = some (sha256_file contents)
    ∧ (verify_file_against_provenance env s contents filename case_arg request_id
        client_ip user_agent).1.case_id = some cid := by
  rw [verify_resolves hres, verifyResolved_ok hok hlv]
  refine ⟨rfl, rfl, rfl, rfl, ?_, ?_, ?_, ?_⟩ <;>
    by_cases h : sha256_file contents = lv.file_hash <;> simp [h]

/-- Witness for C3 at a concrete store: one case, one file version, an empty
(valid) chain. -/
theorem c3_witness :
    resolvedCaseId storeA "doc.bin" (some 1) = some 1
    ∧ (validate_case_chain env0 storeA 1).ok = true
    ∧ get_latest_file_version storeA 1 = some version1
    ∧ ((verify_file_against_provenance env0 storeA [1, 2] "doc.bin" (some 1) "r2"
          none none).2.events =
        storeA.events ++ [(append_provenance_event env0 storeA 1 none "VERIFY"
          (sha256_file [1, 2]) "r2" none none).1]) :=
  ⟨by decide, by decide, by decide,
    (c3_verify_appends_audit_event env0 storeA [1, 2] "doc.bin" (some 1) "r2"
      none none 1 version1 (by decide) (by decide) (by decide)).1⟩

/-- **C4.** When chain validation of the resolved case fails,
`verify_file_against_provenance` returns `TAMPERED_CHAIN` for a `CHAIN`
failure and `TAMPERED_HMAC` for an `HMAC` failure (the only two kinds a
failed validation can carry), and performs no write at all: the store — in
particular the case's event list — is unchanged. -/
theorem c4_verify_broken_chain_no_write (env : Env) (s : Store) (contents : List Nat)
    (filename : String) (case_arg : Option Int) (request_id : String)
    (client_ip user_agent : Option String) (cid : Int)
    (hres : resolvedCaseId s filename case_arg = some cid)
    (hbad : (validate_case_chain env s cid).ok = false) :
    (verify_file_against_provenance env s contents filename case_arg request_id
        client_ip user_agent).2 = s
    ∧ (verify_file_against_provenance env s contents filename case_arg request_id
        client_ip user_agent).1.status =
      (if (validate_case_chain env s cid).failure_type == some FKind.CHAIN then
        "TAMPERED_CHAIN" else "TAMPERED_HMAC")
    ∧ ((validate_case_chain env s cid).failure_type = some FKind.CHAIN ∨
        (validate_case_chain env s cid).failure_type = some FKind.HMAC)
    ∧ (verify_file_against_provenance env s contents filename case_arg request_id
        client_ip user_agent).1.case_id = some cid := by
  rw [verify_resolves hres, verifyResolved_fail hbad]
  exact ⟨rfl, rfl, validate_chain_fail_kind hbad, rfl⟩

/-- Witness for C4 at a concrete store whose single event has a broken
`prev_hash` link. -/
theorem c4_witness :
    resolvedCaseId storeB "doc.bin" (some 1) = some 1
    ∧ (validate_case_chain env0 storeB 1).ok = false
    ∧ (verify_file_against_provenance env0 storeB [1, 2] "doc.bin" (some 1) "r2"
        none none).2 = storeB :=
  ⟨by decide, by decide,
    (c4_verify_broken_chain_no_write env0 storeB [1, 2] "doc.bin" (some 1) "r2"
      none none 1 (by decide) (by decide)).1⟩

/-- **C5.** Every appended event links to the previously last event of its
case (by descending id; `"GENESIS"` when there is none), carries
`curr_hash = SHA-256(canonical_json(core))` — where the core is re-read off
the stored event row itself (`specCoreFields`) — and carries
`record_hmac = HMAC-SHA-256(key, curr_hash hex string)` computed over the
UTF-8 bytes of the hex string; the event is appended at the end of the
event table.  Consequently the new row is sealed in the sense of C1's
`specEventSealed`. -/
theorem c5_append_monotone_and_sealed (env : Env) (s : Store) (case_id : Int)
    (file_version_id : Option Int) (action file_hash request_id : String)
    (client_ip user_agent : Option String) :
    (append_provenance_event env s case_id file_version_id action file_hash
        request_id client_ip user_agent).1.prev_hash =
      (match lastEventOf s case_id with
        | some e => e.curr_hash
        | none => GENESIS_PREV_HASH)
    ∧ (append_provenance_event env s case_id file_version_id action file_hash
        request_id client_ip user_agent).1.curr_hash =
      sha256_bytes (utf8Encode (canonical_json (specCoreFields
        (append_provenance_event env s case_id file_version_id action file_hash
          request_id client_ip user_agent).1)))
    ∧ (append_provenance_event env s case_id file_version_id action file_hash
        request_id client_ip user_agent).1.record_hmac =
      hmac_sha256_hex env.key
        (append_provenance_event env s case_id file_version_id action file_hash
          request_id client_ip user_agent).1.curr_hash
    ∧ specEventSealed env.key
        (append_provenance_event env s case_id file_version_id action file_hash
          request_id client_ip user_agent).1 = true
    ∧ (append_provenance_event env s case_id file_version_id action file_hash
        request_id client_ip user_agent).2.events =
      s.events ++ [(append_provenance_event env s case_id file_version_id action
        file_hash request_id client_ip user_agent).1] := by
  refine ⟨rfl, rfl, rfl, ?_, rfl⟩
  simp only [specEventSealed, Bool.and_eq_true, beq_iff_eq]
  exact ⟨rfl, rfl⟩

/-- **C6.** `canonical_json` is a deterministic function of the map's
contents: permuting the input pairs (with distinct keys) leaves the output
byte-identical; the emitted pair list is key-sorted in strict code-point
lexicographic order; the output is exactly `{`, the sorted pairs rendered
with `","` and `":"` separators and no spaces, then `}` — so a `null` value
(`encJVal JVal.null = "null"`) appears in the output under its key, and the
last character is `}`, never a newline; and every non-ASCII code point is
emitted literally by the escaper rather than `\u`-escaped. -/
theorem c6_canonical_json_deterministic (l₁ l₂ : List (String × JVal)) (c : Char)
    (hperm : l₁.Perm l₂) (hnd : (l₁.map Prod.fst).Nodup) (hc : 128 ≤ c.toNat) :
    canonical_json l₁ = canonical_json l₂
    ∧ (sortPairs l₁).Perm l₁
    ∧ ((sortPairs l₁).map Prod.fst).Pairwise (fun a b => keyLt a b = true)
    ∧ canonical_json l₁ =
        "\x7b" ++ String.intercalate ","
          ((sortPairs l₁).map (fun p => encString p.1 ++ ":" ++ encJVal p.2)) ++ "\x7d"
    ∧ encJVal JVal.null = "null"
    ∧ escapeChar c = String.singleton c
    ∧ (canonical_json l₁).data.getLast? = some '\x7d' := by
  refine ⟨?_, sortPairs_perm l₁, ?_, rfl, rfl, ?_, ?_⟩
  · unfold canonical_json
    rw [sortPairs_eq_of_perm hperm hnd]
  · exact List.pairwise_map.mpr (pairwise_lt_sortPairs hnd)
  · have h1 : c ≠ '"' := by rintro rfl; exact absurd hc (by decide)
    have h2 : c ≠ '\\' := by rintro rfl; exact absurd hc (by decide)
    have h3 : c ≠ '\x08' := by rintro rfl; exact absurd hc (by decide)
    have h4 : c ≠ '\x0c' := by rintro rfl; exact absurd hc (by decide)
    have h5 : c ≠ '\n' := by rintro rfl; exact absurd hc (by decide)
    have h6 : c ≠ '\r' := by rintro rfl; exact absurd hc (by decide)
    have h7 : c ≠ '\t' := by rintro rfl; exact absurd hc (by decide)
    have h8 : ¬ c.toNat < 32 := by omega
    simp [escapeChar, h1, h2, h3, h4, h5, h6, h7, h8]
  · show (("\x7b" ++ String.intercalate ","
        ((sortPairs l₁).map (fun p => encString p.1 ++ ":" ++ encJVal p.2)) ++
        "\x7d").data.getLast? = some '\x7d')
    rw [String.data_append]
    exact List.getLast?_concat _

/-- Witness for C6: two orderings of a two-key map, and a concrete non-ASCII
character. -/
theorem c6_witness :
    ([("b", JVal.n 1), ("a", JVal.s "x")] :
        List (String × JVal)).Perm [("a", JVal.s "x"), ("b", JVal.n 1)]
    ∧ (([("b", JVal.n 1), ("a", JVal.s "x")] :
        List (String × JVal)).map Prod.fst).Nodup
    ∧ 128 ≤ 'é'.toNat
    ∧ canonical_json [("b", JVal.n 1), ("a", JVal.s "x")] =
        canonical_json [("a", JVal.s "x"), ("b", JVal.n 1)] :=
  ⟨by decide, by decide, by decide,
    (c6_canonical_json_deterministic [("b", JVal.n 1), ("a", JVal.s "x")]
      [("a", JVal.s "x"), ("b", JVal.n 1)] 'é' (by decide) (by decide) (by decide)).1⟩

/-- **C7 counterexample.** Called with an empty filename on an empty store,
`register_upload_as_new_version` does not fail and does change state: it
creates a case whose filename is the empty string, one file version and one
`CREATE` event — contradicting the claim that the call fails with an
input-validation error and makes no state change. -/
theorem c7_counterexample :
    (register_upload_as_new_version env0 store0 "" "p" "h" "r1" none
        none).2.cases.map (fun c => c.filename) = [""]
    ∧ (register_upload_as_new_version env0 store0 "" "p" "h" "r1" none
        none).2.events.length = 1
    ∧ (register_upload_as_new_version env0 store0 "" "p" "h" "r1" none
        none).2.versions.length = 1 := by
  refine ⟨?_, ?_, ?_⟩ <;> decide

/-- **C7 (amended).** `register_upload_as_new_version` performs no filename
validation: called with an empty filename it proceeds exactly as for any
other filename, creating (or reusing) a case whose filename is `""` and
inserting one new file version and one new event.  The empty-filename
rejection exists only in the HTTP layer (`save_upload` raises before the
engine is reached). -/
theorem c7_register_ignores_empty_filename (env : Env) (s : Store)
    (stored_path file_hash request_id : String) (client_ip user_agent : Option String) :
    (register_upload_as_new_version env s "" stored_path file_hash request_id
        client_ip user_agent).2.versions.length = s.versions.length + 1
    ∧ (register_upload_as_new_version env s "" stored_path file_hash request_id
        client_ip user_agent).2.events.length = s.events.length + 1
    ∧ ∃ c, c ∈ (register_upload_as_new_version env s "" stored_path file_hash
        request_id client_ip user_agent).2.cases ∧ c.filename = "" := by
  unfold register_upload_as_new_version get_or_create_case_by_filename
  cases hml : get_latest_case_by_filename s "" with
  | some c =>
    obtain ⟨hcf, hcm⟩ := get_latest_case_props hml
    exact ⟨by simp [create_file_version, append_provenance_event],
      by simp [create_file_version, append_provenance_event], c,
      by simpa [create_file_version, append_provenance_event] using hcm, hcf⟩
  | none =>
    refine ⟨by simp [create_file_version, append_provenance_event],
      by simp [create_file_version, append_provenance_event], ?_⟩
    refine ⟨{ id := nextId (s.cases.map (fun c => c.id)), case_uuid := env.fresh_uuid,
              filename := "", created_time := env.now, system_id := env.system_id },
      ?_, rfl⟩
    simp [create_file_version, append_provenance_event]

/-- **C8.** `load_or_create_system_id` evaluated on the three file states:
present and non-empty returns the stripped contents; absent generates and
persists `host-<16 hex>`; but present-and-empty — where the claim and the
code's own fall-through say a fresh identity should be generated and
persisted — hits `os.open(..., O_CREAT | O_EXCL)` on a file that exists and
raises `FileExistsError` instead of returning an identity. -/
theorem c8_system_id_behavior :
    load_or_create_system_id (some " host-A \n") "0123456789abcdef" =
      .ok ("host-A", some " host-A \n")
    ∧ load_or_create_system_id none "0123456789abcdef" =
        .ok ("host-0123456789abcdef", some "host-0123456789abcdef")
    ∧ load_or_create_system_id (some "") "0123456789abcdef" = .error .fileExists :=
  ⟨rfl, rfl, rfl⟩

/-- **C9.** No operation mutates a pre-existing row: `append_provenance_event`
only appends one event; `create_file_version` only appends one version;
`get_or_create_case_by_filename` at most appends one case;
`register_upload_as_new_version` appends one version, one event and at most
one case; `verify_file_against_provenance` never touches cases or versions
and only ever appends to the event table.  (The query operations `get_case`,
`get_latest_case_by_filename`, `get_latest_file_version`,
`list_provenance_events`, `validate_case_chain` are store-pure by type: they
return no store.) -/
theorem c9_no_mutation (env : Env) (s : Store) (case_id : Int)
    (file_version_id : Option Int) (action file_hash request_id stored_path : String)
    (file_size : Int) (mime_type : Option String) (filename filename2 : String)
    (contents : List Nat) (case_arg : Option Int) (client_ip user_agent : Option String) :
    ((append_provenance_event env s case_id file_version_id action file_hash
        request_id client_ip user_agent).2.cases = s.cases
      ∧ (append_provenance_event env s case_id file_version_id action file_hash
          request_id client_ip user_agent).2.versions = s.versions
      ∧ (append_provenance_event env s case_id file_version_id action file_hash
          request_id client_ip user_agent).2.events =
        s.events ++ [(append_provenance_event env s case_id file_version_id action
          file_hash request_id client_ip user_agent).1])
    ∧ ((create_file_version env s case_id stored_path file_hash file_size
          mime_type).2.cases = s.cases
      ∧ (create_file_version env s case_id stored_path file_hash file_size
          mime_type).2.events = s.events
      ∧ (create_file_version env s case_id stored_path file_hash file_size
          mime_type).2.versions =
        s.versions ++ [(create_file_version env s case_id stored_path file_hash
          file_size mime_type).1])
    ∧ ((get_or_create_case_by_filename env s filename).2.versions = s.versions
      ∧ (get_or_create_case_by_filename env s filename).2.events = s.events
      ∧ ∃ ctl, (get_or_create_case_by_filename env s filename).2.cases = s.cases ++ ctl)
    ∧ (∃ vnew enew ctl,
        (register_upload_as_new_version env s filename2 stored_path file_hash
          request_id client_ip user_agent).2.cases = s.cases ++ ctl
        ∧ (register_upload_as_new_version env s filename2 stored_path file_hash
            request_id client_ip user_agent).2.versions = s.versions ++ [vnew]
        ∧ (register_upload_as_new_version env s filename2 stored_path file_hash
            request_id client_ip user_agent).2.events = s.events ++ [enew])
    ∧ ((verify_file_against_provenance env s contents filename2 case_arg request_id
          client_ip user_agent).2.cases = s.cases
      ∧ (verify_file_against_provenance env s contents filename2 case_arg request_id
          client_ip user_agent).2.versions = s.versions
      ∧ ∃ etl, (verify_file_against_provenance env s contents filename2 case_arg
          request_id client_ip user_agent).2.events = s.events ++ etl) := by
  refine ⟨⟨rfl, rfl, rfl⟩, ⟨rfl, rfl, rfl⟩, ?_, ?_, ?_⟩
  · unfold get_or_create_case_by_filename
    cases get_latest_case_by_filename s filename with
    | some c => exact ⟨rfl, rfl, [], by simp⟩
    | none => exact ⟨rfl, rfl, [_], rfl⟩
  · unfold register_upload_as_new_version get_or_create_case_by_filename
    cases get_latest_case_by_filename s filename2 with
    | some c => exact ⟨_, _, [], by simp [create_file_version, append_provenance_event],
        rfl, rfl⟩
    | none => exact ⟨_, _, [_], rfl, rfl, rfl⟩
  · have hres : ∀ cid,
        (verifyResolved env s (sha256_file contents) cid request_id client_ip
          user_agent).2.cases = s.cases
        ∧ (verifyResolved env s (sha256_file contents) cid request_id client_ip
            user_agent).2.versions = s.versions
        ∧ ∃ etl, (verifyResolved env s (sha256_file contents) cid request_id client_ip
            user_agent).2.events = s.events ++ etl := by
      intro cid
      dsimp only [verifyResolved]
      by_cases hok : (validate_case_chain env s cid).ok = false
      · rw [if_pos hok]
        exact ⟨rfl, rfl, [], by simp⟩
      · rw [if_neg hok]
        cases get_latest_file_version s cid with
        | none => exact ⟨rfl, rfl, [], by simp⟩
        | some lv =>
          dsimp only
          by_cases hcmp : sha256_file contents = lv.file_hash
          · rw [if_pos hcmp]
            exact ⟨rfl, rfl, _, rfl⟩
          · rw [if_neg hcmp]
            exact ⟨rfl, rfl, _, rfl⟩
    dsimp only [verify_file_against_provenance]
    cases case_arg with
    | some c0 =>
      dsimp only
      rcases hg : get_case s c0 with _ | cc
      · exact ⟨rfl, rfl, [], by simp⟩
      · exact hres cc.id
    | none =>
      dsimp only
      rcases hg : get_latest_case_by_filename s filename2 with _ | cc
      · exact ⟨rfl, rfl, [], by simp⟩
      · exact hres cc.id

/-- **C10.** The empty event list validates OK with no error and no failure
type; hence `validate_case_chain` of any case id whose event query returns
no rows — a case with no events, or a nonexistent case id — reports a valid
chain. -/
theorem c10_empty_chain_valid (hmac_key : List Nat) (env : Env) (s : Store) (case_id : Int)
    (h : s.events.filter (fun e => e.case_id == case_id) = []) :
    validate_chain [] hmac_key = { ok := true }
    ∧ (validate_case_chain env s case_id).ok = true := by
  refine ⟨rfl, ?_⟩
  unfold validate_case_chain list_provenance_events
  rw [h]
  rfl

/-- Witness for C10: the empty store and an arbitrary (nonexistent) case id. -/
theorem c10_witness :
    store0.events.filter (fun e => e.case_id == 7) = []
    ∧ (validate_chain [] env0.key = { ok := true }
      ∧ (validate_case_chain env0 store0 7).ok = true) :=
  ⟨rfl, c10_empty_chain_valid env0.key env0 store0 7 rfl⟩
